import Mathlib

/-!
Verification development for the transcription-search-api repository.

The Rust source is shallowly embedded:
* `src/file_parser.rs` — `parse_episode_filename` (three chained regexes plus
  the parent-directory season pattern) and `process_seasons` (the transactional
  ingestion loop over seasons/episodes/lines with dedup-upserts).
* `src/api.rs` — `escape_fts5_query`, the `search_phrases` condition builder
  and query, `get_context_lines`, and `get_transcript`.

SQLite is modelled as an explicit record of tables (lists of rows in rowid
order); statements that can fail are driven by a fault oracle indexed by the
sequence number of the statement, and the surrounding transaction is modelled
by returning the caller's database unchanged whenever the run aborts before
the commit point.  A `SELECT` without an `ORDER BY` clause returns rows in
stored (rowid) order; one with `ORDER BY` applies a stable sort by the given
key.  The FTS5 `MATCH` operator is external to the repository (the schema file
is not part of the source), so the match predicate is a parameter.
-/

namespace TranscriptSearch

/-! ## Characters and strings (Rust `str` helpers) -/

/-- Unicode whitespace test as used by Rust `char::is_whitespace` / regex `\s`
(restricted to the ASCII whitespace that `Char.isWhitespace` knows). -/
def isWsChar (c : Char) : Bool := c.isWhitespace

/-- Rust `str::trim`: drop leading and trailing whitespace. -/
def trimChars (cs : List Char) : List Char :=
  ((cs.dropWhile isWsChar).reverse.dropWhile isWsChar).reverse

/-- Rust `str::trim` on `String`. -/
def strTrim (s : String) : String := String.mk (trimChars s.data)

/-- The text before the first colon of a line. -/
def beforeColon (s : String) : String :=
  String.mk (s.data.takeWhile (fun c => c ≠ ':'))

/-- The text after the first colon of a line. -/
def afterColon (s : String) : String :=
  String.mk (s.data.drop ((s.data.takeWhile (fun c => c ≠ ':')).length + 1))

/-- Rust `str::split_once(':')`: split at the first colon, if any. -/
def splitOnceColon (s : String) : Option (String × String) :=
  if s.data.contains ':' then some (beforeColon s, afterColon s) else none

/-- Byte/codepoint-wise lexicographic `<` on char lists (Rust `Ord` for `str`). -/
def listCharLt : List Char → List Char → Bool
  | [], [] => false
  | [], _ :: _ => true
  | _ :: _, [] => false
  | a :: as', b :: bs' =>
    if a.toNat < b.toNat then true
    else if b.toNat < a.toNat then false
    else listCharLt as' bs'

/-- Lexicographic `≤` on strings. -/
def strLeB (a b : String) : Bool := listCharLt a.data b.data || a == b

/-- `i32::from_str` on a plain digit string: fails on overflow (Rust
`caps[i].parse::<i32>().ok()`); the regexes only ever hand it digits. -/
def parseI32 (ds : List Char) : Option Int :=
  if ds.isEmpty then none
  else
    let n := ds.foldl (fun acc c => acc * 10 + (c.toNat - '0'.toNat)) 0
    if n ≤ 2147483647 then some (Int.ofNat n) else none

/-- Rust `Path::extension`: the portion of the file name after the last `.`,
or `none` when there is no dot or the only dot is the leading character. -/
def extensionOf (name : String) : Option String :=
  let cs := name.data
  if cs.contains '.' then
    let revExt := cs.reverse.takeWhile (fun c => c ≠ '.')
    if cs.length - revExt.length - 1 = 0 then none
    else some (String.mk revExt.reverse)
  else none

/-! ## Regex transliteration

Each regex of `parse_episode_filename` is transliterated into a backtracking
matcher with the regex crate's leftmost-greedy priority: candidate lists are
ordered with the longest (greedy) alternative first and `firstSome` commits to
the first full match. -/

/-- First successful alternative, in priority order. -/
def firstSome : List α → (α → Option β) → Option β
  | [], _ => none
  | a :: rest, f =>
    match f a with
    | some b => some b
    | none => firstSome rest f

/-- Case-insensitive literal character (`(?i)` flag). -/
def charCI (pat c : Char) : Bool := pat.toLower == c.toLower

/-- Case-insensitive literal string; returns the remaining input. -/
def expectCI : List Char → List Char → Option (List Char)
  | [], cs => some cs
  | _ :: _, [] => none
  | p :: ps, c :: cs => if charCI p c then expectCI ps cs else none

/-- `\d{1,2}` (greedy): candidate `(digits, rest)` pairs, two digits first. -/
def digits12 : List Char → List (List Char × List Char)
  | [] => []
  | [c] => if c.isDigit then [([c], [])] else []
  | c1 :: c2 :: rest =>
    if c1.isDigit then
      if c2.isDigit then [([c1, c2], rest), ([c1], c2 :: rest)]
      else [([c1], c2 :: rest)]
    else []

/-- `\d+` (greedy): candidate `(digits, rest)` pairs, longest first. -/
def digitsPlusSplits (cs : List Char) : List (List Char × List Char) :=
  let m := (cs.takeWhile Char.isDigit).length
  (List.range m).map (fun i => (cs.take (m - i), cs.drop (m - i)))

/-- `\s*` (greedy): candidate remainders, most whitespace consumed first. -/
def wsStarSplits (cs : List Char) : List (List Char) :=
  let k := (cs.takeWhile isWsChar).length
  (List.range (k + 1)).map (fun i => cs.drop (k - i))

/-- `(.+)` (greedy): candidate `(captured, rest)` pairs over non-newline
characters, longest capture first. -/
def dotPlusSplits (cs : List Char) : List (List Char × List Char) :=
  let m := (cs.takeWhile (fun c => c ≠ '\n')).length
  (List.range m).map (fun i => (cs.take (m - i), cs.drop (m - i)))

/-- `\.txt$` (case-insensitive, anchored at the end). -/
def endTxt (cs : List Char) : Bool := expectCI ['.', 't', 'x', 't'] cs == some []

/-- `\s*-\s*(.+)\.txt$`: the common separator-and-title tail of the filename
patterns.  Returns the raw (untrimmed) title capture. -/
def tailTitle (cs : List Char) : Option (List Char) :=
  match cs.dropWhile isWsChar with
  | '-' :: cs2 =>
    firstSome (wsStarSplits cs2) fun cs3 =>
    firstSome (dotPlusSplits cs3) fun (title, rest) =>
    if endTxt rest then some title else none
  | _ => none

/-- Captures of `(?i)^(\d{1,2})x(\d{1,2})\s*-\s*(.+)\.txt$`. -/
def capturesPat1 (cs : List Char) : Option (List Char × List Char × List Char) :=
  firstSome (digits12 cs) fun (d1, cs1) =>
  match cs1 with
  | x :: cs2 =>
    if charCI 'x' x then
      firstSome (digits12 cs2) fun (d2, cs3) =>
      (tailTitle cs3).map (fun t => (d1, d2, t))
    else none
  | [] => none

/-- Captures of `(?i)^s(\d{1,2})e(\d{1,2})(?:\s*-\s*(.+))?\.txt$`; the third
capture is `none` when the optional title group did not participate. -/
def capturesPat2 (cs : List Char) :
    Option (List Char × List Char × Option (List Char)) :=
  match cs with
  | s0 :: cs1 =>
    if charCI 's' s0 then
      firstSome (digits12 cs1) fun (d1, cs2) =>
      match cs2 with
      | e0 :: cs3 =>
        if charCI 'e' e0 then
          firstSome (digits12 cs3) fun (d2, cs4) =>
          match tailTitle cs4 with
          | some t => some (d1, d2, some t)
          | none => if endTxt cs4 then some (d1, d2, none) else none
        else none
      | [] => none
    else none
  | [] => none

/-- Captures of `(?i)^e(\d+)\s*-\s*(.+)\.txt$`. -/
def capturesPat3 (cs : List Char) : Option (List Char × List Char) :=
  match cs with
  | e0 :: cs1 =>
    if charCI 'e' e0 then
      firstSome (digitsPlusSplits cs1) fun (d, cs2) =>
      (tailTitle cs2).map (fun t => (d, t))
    else none
  | [] => none

/-- One attempt of `(?i)(?:season)?\s*S?(\d{1,2})` anchored at the current
position: the optional literal, optional `s`, then the digit capture, each
greedy-first. -/
def seasonDirTryAt (cs : List Char) : Option (List Char) :=
  let sOptDigits : List Char → Option (List Char) := fun cs1 =>
    let digitsHere : List Char → Option (List Char) := fun cs2 =>
      (digits12 cs2).head?.map (fun p => p.1)
    match cs1 with
    | c :: rest =>
      if charCI 's' c then
        match digitsHere rest with
        | some d => some d
        | none => digitsHere cs1
      else digitsHere cs1
    | [] => none
  let afterSeasonWord : List Char → Option (List Char) := fun cs1 =>
    firstSome (wsStarSplits cs1) sOptDigits
  match expectCI ['s', 'e', 'a', 's', 'o', 'n'] cs with
  | some rest =>
    match afterSeasonWord rest with
    | some d => some d
    | none => afterSeasonWord cs
  | none => afterSeasonWord cs

/-- Unanchored leftmost search of the season-directory pattern
(`season_dir_regex.captures(parent)` followed by `.get(1)`). -/
def seasonDirFind : List Char → Option (List Char)
  | [] => none
  | c :: rest =>
    match seasonDirTryAt (c :: rest) with
    | some d => some d
    | none => seasonDirFind rest

/-- `parse_episode_filename` (src/file_parser.rs lines 12–44): try the three
filename patterns in priority order; the episode-only pattern derives the
season from the parent directory; any capture-parse failure aborts the whole
classification (the Rust `?` operator). -/
def parse_episode_filename (filename : String) (parentDir : Option String) :
    Option (Int × Int × String) :=
  let cs := (strTrim filename).data
  match capturesPat1 cs with
  | some (d1, d2, t) => do
    let sn ← parseI32 d1
    let en ← parseI32 d2
    pure (sn, en, strTrim (String.mk t))
  | none =>
  match capturesPat2 cs with
  | some (d1, d2, t?) => do
    let sn ← parseI32 d1
    let en ← parseI32 d2
    pure (sn, en, strTrim (String.mk (t?.getD [])))
  | none =>
  match capturesPat3 cs with
  | some (d, t) => do
    let sn ← parentDir.bind (fun parent => (seasonDirFind parent.data).bind parseI32)
    let en ← parseI32 d
    pure (sn, en, strTrim (String.mk t))
  | none => none

/-! ## Relational store

Tables are lists of rows in rowid (insertion) order; each table has its own
auto-increment counter starting at 1, as in SQLite. -/

structure SeasonRow where
  id : Nat
  number : Int
deriving DecidableEq, Repr

structure EpisodeRow where
  id : Nat
  season_id : Nat
  number : Int
  title : String
deriving DecidableEq, Repr

structure SpeakerRow where
  id : Nat
  name : String
deriving DecidableEq, Repr

structure LineRow where
  id : Nat
  season_id : Nat
  episode_id : Nat
  speaker_id : Option Nat
  line_number : Int
  content : String
deriving DecidableEq, Repr

structure DB where
  seasons : List SeasonRow
  episodes : List EpisodeRow
  speakers : List SpeakerRow
  lines : List LineRow
  nextSeasonId : Nat
  nextEpisodeId : Nat
  nextSpeakerId : Nat
  nextLineId : Nat
deriving DecidableEq, Repr

def dbEmpty : DB := ⟨[], [], [], [], 1, 1, 1, 1⟩

/-- `INSERT INTO seasons (number) VALUES (?) ON CONFLICT(number) DO UPDATE SET
number = excluded.number RETURNING id`: dedup-upsert by the unique `number`
key; the conflict update rewrites the number with itself, so the row is
unchanged and the existing id is returned. -/
def upsertSeason (db : DB) (num : Int) : DB × Nat :=
  match db.seasons.find? (fun r => r.number == num) with
  | some r => (db, r.id)
  | none =>
    ({ db with
        seasons := db.seasons ++ [⟨db.nextSeasonId, num⟩],
        nextSeasonId := db.nextSeasonId + 1 }, db.nextSeasonId)

/-- `INSERT INTO episodes (season_id, number, title) VALUES (?, ?, ?) ON
CONFLICT(season_id, number) DO UPDATE SET title = excluded.title RETURNING id`:
on conflict the title is overwritten in place and the existing id returned. -/
def upsertEpisode (db : DB) (sid : Nat) (num : Int) (title : String) : DB × Nat :=
  match db.episodes.find? (fun r => r.season_id == sid && r.number == num) with
  | some r =>
    ({ db with
        episodes :=
          db.episodes.map (fun e => if e.id == r.id then { e with title := title } else e) },
      r.id)
  | none =>
    ({ db with
        episodes := db.episodes ++ [⟨db.nextEpisodeId, sid, num, title⟩],
        nextEpisodeId := db.nextEpisodeId + 1 }, db.nextEpisodeId)

/-- `INSERT INTO speakers (name) VALUES (?) ON CONFLICT(name) DO UPDATE SET
name = excluded.name RETURNING id`: dedup-upsert by the unique name. -/
def upsertSpeaker (db : DB) (name : String) : DB × Nat :=
  match db.speakers.find? (fun r => r.name == name) with
  | some r => (db, r.id)
  | none =>
    ({ db with
        speakers := db.speakers ++ [⟨db.nextSpeakerId, name⟩],
        nextSpeakerId := db.nextSpeakerId + 1 }, db.nextSpeakerId)

/-- `INSERT INTO lines (season_id, episode_id, speaker_id, line_number,
content) VALUES (?, ?, ?, ?, ?)`: plain append, no conflict clause. -/
def insertLine (db : DB) (sid eid : Nat) (spk : Option Nat) (num : Int)
    (content : String) : DB :=
  { db with
      lines := db.lines ++ [⟨db.nextLineId, sid, eid, spk, num, content⟩],
      nextLineId := db.nextLineId + 1 }

/-! ## Stable sort by a boolean key relation

Models both Rust's stable `sort_by_key` and SQL `ORDER BY`. -/

/-- Insert `a` into `l` before the first element it is `le`-below; keeping `a`
in front of `le`-equal elements makes the sort stable. -/
def insertLe (le : α → α → Bool) (a : α) : List α → List α
  | [] => [a]
  | b :: l => if le a b then a :: b :: l else b :: insertLe le a l

/-- Stable insertion sort by a boolean relation. -/
def sortByLe (le : α → α → Bool) : List α → List α
  | [] => []
  | a :: l => insertLe le a (sortByLe le l)

/-! ## Transactional ingestion (`process_seasons`, src/file_parser.rs 47–165)

The walked directory tree is abstracted to a list of `(file name, parent
directory name, physical lines)` entries — exactly what `WalkDir` plus
`BufReader::lines` hands the loop.  Every SQL statement executed inside the
transaction runs through `sqlStep`, which consults a fault oracle indexed by
the statement's position in the run; a firing fault is a storage failure, the
Rust `?` propagates it, and dropping the transaction rolls everything back
(the caller-visible database is returned unchanged).  The final
`remove_dir_all` of the staging directory happens *after* `commit` and also
consumes a fault index. -/

structure SrcFile where
  name : String
  parent : Option String
  content : List String
deriving DecidableEq, Repr

inductive IngestError
  | noValidTextFiles
  | storage
  | cleanupFailed
deriving DecidableEq, Repr

/-- Transaction state: the staged database plus the index of the next
fallible operation. -/
structure Tx where
  db : DB
  tick : Nat
deriving DecidableEq, Repr

/-- Run one SQL statement inside the transaction: fail if the fault oracle
fires at this index, otherwise apply the statement to the staged database. -/
def sqlStep (faults : Nat → Bool) (st : Tx) (op : DB → DB × α) :
    Except IngestError (Tx × α) :=
  if faults st.tick then Except.error IngestError.storage
  else Except.ok (⟨(op st.db).1, st.tick + 1⟩, (op st.db).2)

/-- The per-episode line loop (src/file_parser.rs 127–156): for each physical
line, split once on the first `:`; a prefix is trimmed and upserted as a
speaker, the line row is inserted unconditionally, and the 1-based counter
increments by one per physical line. -/
def processLines (faults : Nat → Bool) (st : Tx) (sid eid : Nat) (n : Int) :
    List String → Except IngestError Tx
  | [] => Except.ok st
  | s :: rest =>
    match splitOnceColon s with
    | some (pre, post) =>
      match sqlStep faults st (fun db => upsertSpeaker db (strTrim pre)) with
      | Except.error e => Except.error e
      | Except.ok (st1, spkId) =>
        match sqlStep faults st1
            (fun db => (insertLine db sid eid (some spkId) n (strTrim post), ())) with
        | Except.error e => Except.error e
        | Except.ok (st2, _) => processLines faults st2 sid eid (n + 1) rest
    | none =>
      match sqlStep faults st (fun db => (insertLine db sid eid none n (strTrim s), ())) with
      | Except.error e => Except.error e
      | Except.ok (st1, _) => processLines faults st1 sid eid (n + 1) rest

/-- The episode loop inside one season (src/file_parser.rs 102–157). -/
def processEpisodes (faults : Nat → Bool) (st : Tx) (sid : Nat) :
    List (Int × String × SrcFile) → Except IngestError Tx
  | [] => Except.ok st
  | (num, title, f) :: rest =>
    match sqlStep faults st (fun db => upsertEpisode db sid num title) with
    | Except.error e => Except.error e
    | Except.ok (st1, eid) =>
      match processLines faults st1 sid eid 1 f.content with
      | Except.error e => Except.error e
      | Except.ok st2 => processEpisodes faults st2 sid rest

/-- Sort key for episodes within a season: `sort_by_key(|(num, title, _)|
(num, title))`, stable lexicographic on `(episode number, title)`. -/
def epSortLe (a b : Int × String × SrcFile) : Bool :=
  decide (a.1 < b.1) || (decide (a.1 = b.1) && strLeB a.2.1 b.2.1)

/-- The season loop (src/file_parser.rs 91–158): seasons in ascending number
order; within a season, episodes sorted by `(number, title)`. -/
def processGroups (faults : Nat → Bool) (st : Tx) :
    List (Int × List (Int × String × SrcFile)) → Except IngestError Tx
  | [] => Except.ok st
  | (snum, eps) :: rest =>
    match sqlStep faults st (fun db => upsertSeason db snum) with
    | Except.error e => Except.error e
    | Except.ok (st1, sid) =>
      match processEpisodes faults st1 sid (sortByLe epSortLe eps) with
      | Except.error e => Except.error e
      | Except.ok st2 => processGroups faults st2 rest

/-- Append an episode entry to its season's group, preserving first-seen key
order (`season_episodes.entry(season_num).or_default().push(..)`). -/
def addToGroup : List (Int × List (Int × String × SrcFile)) → Int →
    Int × String × SrcFile → List (Int × List (Int × String × SrcFile))
  | [], s, e => [(s, [e])]
  | (k, v) :: rest, s, e =>
    if k == s then (k, v ++ [e]) :: rest else (k, v) :: addToGroup rest s e

/-- Ascending order on season groups (`sorted_seasons.sort_by_key`). -/
def groupLe (a b : Int × List (Int × String × SrcFile)) : Bool := decide (a.1 ≤ b.1)

/-- Classification and grouping phase (src/file_parser.rs 74–89): classify
each entry, drop unrecognized ones silently, group by season number, sort the
groups by season number. -/
def classifyGroups (entries : List SrcFile) :
    List (Int × List (Int × String × SrcFile)) :=
  sortByLe groupLe
    (entries.foldl
      (fun gs f =>
        match parse_episode_filename f.name f.parent with
        | some (sn, en, t) => addToGroup gs sn (en, t, f)
        | none => gs)
      [])

/-- Ascending file-name order for the walked entries
(`entries.sort_by_key(|e| e.path().file_name())`). -/
def nameLe (a b : SrcFile) : Bool := strLeB a.name b.name

/-- The `.txt` filter applied to the walked entries (case-sensitive extension
comparison, src/file_parser.rs 63). -/
def txtEntries (files : List SrcFile) : List SrcFile :=
  files.filter (fun f => extensionOf f.name == some "txt")

/-- `process_seasons` (src/file_parser.rs 47–165).  Returns the caller-visible
database after the call together with the error, if any: an abort before the
commit point drops the transaction, so the input database is returned
untouched; after a successful run the transaction commits and the staging
directory is removed, and a failure of that removal (`remove_dir_all(..)?`,
line 163) is reported *after* the rows were committed. -/
def process_seasons (db : DB) (files : List SrcFile) (faults : Nat → Bool) :
    DB × Option IngestError :=
  if (sortByLe nameLe (txtEntries files)).isEmpty then (db, some IngestError.noValidTextFiles)
  else
    match processGroups faults ⟨db, 0⟩ (classifyGroups (sortByLe nameLe (txtEntries files))) with
    | Except.error e => (db, some e)
    | Except.ok st =>
      if faults st.tick then (st.db, some IngestError.cleanupFailed)
      else (st.db, none)

/-! Fault-free reference run: the same loops with every statement succeeding.
`process_seasons` is proved to coincide with it on every successful run. -/

def processLinesPure (db : DB) (sid eid : Nat) (n : Int) : List String → DB
  | [] => db
  | s :: rest =>
    match splitOnceColon s with
    | some (pre, post) =>
      let (db1, spkId) := upsertSpeaker db (strTrim pre)
      processLinesPure (insertLine db1 sid eid (some spkId) n (strTrim post))
        sid eid (n + 1) rest
    | none =>
      processLinesPure (insertLine db sid eid none n (strTrim s)) sid eid (n + 1) rest

def processEpisodesPure (db : DB) (sid : Nat) : List (Int × String × SrcFile) → DB
  | [] => db
  | (num, title, f) :: rest =>
    let (db1, eid) := upsertEpisode db sid num title
    processEpisodesPure (processLinesPure db1 sid eid 1 f.content) sid rest

def processGroupsPure (db : DB) : List (Int × List (Int × String × SrcFile)) → DB
  | [] => db
  | (snum, eps) :: rest =>
    let (db1, sid) := upsertSeason db snum
    processGroupsPure (processEpisodesPure db1 sid (sortByLe epSortLe eps)) rest

/-- The fault-free result of one ingestion call: every row derived from the
recognized input files, staged in processing order. -/
def process_seasonsPure (db : DB) (files : List SrcFile) : DB :=
  if (sortByLe nameLe (txtEntries files)).isEmpty then db
  else processGroupsPure db (classifyGroups (sortByLe nameLe (txtEntries files)))

def noFaults : Nat → Bool := fun _ => false

/-! ## Query engine (src/api.rs)

`lines_fts` and the FTS5 `MATCH` operator live in the schema file and in
SQLite, outside this repository's source, so the match predicate over the
bound parameter and the row's content is a parameter `fts` of the search
functions. -/

/-- `escape_fts5_query` (src/api.rs 23–26).  The Rust pattern is the *raw*
string `r"[^\\w\\s]"`, whose regex source is `[^\\w\\s]`: a negated class of
an escaped backslash, the literal `w`, another escaped backslash, and the
literal `s`.  So every character other than `\`, `w`, `s` is replaced by a
space. -/
def escape_fts5_query (q : String) : String :=
  String.mk (q.data.map (fun c => if c = '\\' || c = 'w' || c = 's' then c else ' '))

/-- Query-string fields of `GET /search/phrases` (`SearchPhrasesQuery`,
src/models.rs 47–54). -/
structure SearchPhrasesQuery where
  phrase : Option String
  season : Option Int
  episode : Option Int
  speaker : Option Int
  similar_search : Option Bool
deriving DecidableEq, Repr

/-- The phrase term bound to the FTS condition (src/api.rs 236–241):
`"\"{}\""` around the escaped phrase when `similar_search`, else the literal
text `MATCH ` followed by the escaped phrase — both built from the phrase or
the empty string when the field is absent. -/
def phraseQueryString (q : SearchPhrasesQuery) : String :=
  let phrase := q.phrase.getD ""
  if q.similar_search.getD false then "\"" ++ escape_fts5_query phrase ++ "\""
  else "MATCH " ++ escape_fts5_query phrase

/-- The four predicate templates `search_phrases` can push (src/api.rs
245–260), in push order. -/
inductive Cond
  | ftsMatch
  | seasonEq
  | episodeEq
  | speakerEq
deriving DecidableEq, Repr

/-- The condition/parameter builder of `search_phrases` (src/api.rs 243–265):
each pushed condition gets one positionally bound parameter; the phrase
condition is guarded by `!phrase_query.is_empty()`. -/
def buildConditions (q : SearchPhrasesQuery) : List Cond × List String :=
  let pq := phraseQueryString q
  let acc0 : List Cond × List String :=
    if pq.isEmpty then ([], []) else ([Cond.ftsMatch], [pq])
  let acc1 :=
    match q.season with
    | some sn => (acc0.1 ++ [Cond.seasonEq], acc0.2 ++ [toString sn])
    | none => acc0
  let acc2 :=
    match q.episode with
    | some en => (acc1.1 ++ [Cond.episodeEq], acc1.2 ++ [toString en])
    | none => acc1
  match q.speaker with
  | some sp => (acc2.1 ++ [Cond.speakerEq], acc2.2 ++ [toString sp])
  | none => acc2

/-- A row of the joined relation `lines l JOIN lines_fts fts ON l.id =
fts.rowid LEFT JOIN speakers s JOIN episodes e ON l.episode_id = e.id JOIN
seasons sn ON e.season_id = sn.id`. -/
structure JoinedRow where
  line : LineRow
  ep : EpisodeRow
  sn : SeasonRow
deriving DecidableEq, Repr

/-- The inner joins, in stored order of `lines` (rows whose episode or season
id resolves nowhere are dropped by the inner join; the FTS index mirrors the
lines table). -/
def joinRows (db : DB) : List JoinedRow :=
  db.lines.filterMap (fun l =>
    (db.episodes.find? (fun e => e.id == l.episode_id)).bind (fun e =>
      (db.seasons.find? (fun sn => sn.id == e.season_id)).map (fun sn =>
        ⟨l, e, sn⟩)))

/-- The `LEFT JOIN speakers s ON l.speaker_id = s.id` projection: a line row
decorated with `speaker_name`. -/
structure LineOut where
  line : LineRow
  speaker_name : Option String
deriving DecidableEq, Repr

def withSpeakerName (db : DB) (l : LineRow) : LineOut :=
  ⟨l, l.speaker_id.bind (fun sid =>
      (db.speakers.find? (fun sp => sp.id == sid)).map (fun sp => sp.name))⟩

/-- SQLite integer affinity applied to a bound text parameter compared with an
INTEGER column: the text converts to an integer exactly when it is an optional
sign followed by digits; otherwise the comparison is false. -/
def parseIntText (s : String) : Option Int :=
  match s.data with
  | '-' :: ds => if ds.isEmpty || !ds.all Char.isDigit then none
      else some (-(Int.ofNat (ds.foldl (fun acc c => acc * 10 + (c.toNat - '0'.toNat)) 0)))
  | ds => if ds.isEmpty || !ds.all Char.isDigit then none
      else some (Int.ofNat (ds.foldl (fun acc c => acc * 10 + (c.toNat - '0'.toNat)) 0))

/-- Evaluate one pushed condition against a joined row with its positionally
bound parameter. -/
def evalCond (fts : String → String → Bool) (r : JoinedRow) : Cond × String → Bool
  | (Cond.ftsMatch, p) => fts p r.line.content
  | (Cond.seasonEq, p) => parseIntText p == some r.sn.number
  | (Cond.episodeEq, p) => parseIntText p == some (Int.ofNat r.ep.id)
  | (Cond.speakerEq, p) =>
    match r.line.speaker_id with
    | some sid => parseIntText p == some (Int.ofNat sid)
    | none => false

/-- `ORDER BY sn.number ASC, e.number ASC, l.line_number ASC` as a boolean
key relation. -/
def rowLe (a b : JoinedRow) : Bool :=
  decide (a.sn.number < b.sn.number
    ∨ (a.sn.number = b.sn.number
      ∧ (a.ep.number < b.ep.number
        ∨ (a.ep.number = b.ep.number ∧ a.line.line_number ≤ b.line.line_number))))

/-- The rows produced by the composed `search_phrases` query (src/api.rs
267–294): the joined relation filtered by the conjunction of the pushed
conditions, sorted by the `ORDER BY` key. -/
def searchRows (fts : String → String → Bool) (db : DB) (q : SearchPhrasesQuery) :
    List JoinedRow :=
  sortByLe rowLe
    ((joinRows db).filter (fun r =>
      ((buildConditions q).1.zip (buildConditions q).2).all (evalCond fts r)))

/-- `l.line_number ASC` as a boolean key relation on line rows. -/
def lineNumLe (a b : LineRow) : Bool := decide (a.line_number ≤ b.line_number)

/-- `i32::saturating_sub(2)` on the line number. -/
def i32SatSub2 (n : Int) : Int := max (n - 2) (-2147483648)

/-- `i32::saturating_add(2)` on the line number. -/
def i32SatAdd2 (n : Int) : Int := min (n + 2) 2147483647

/-- `get_context_lines` (src/api.rs 105–132): all lines of the matched line's
episode with `line_number BETWEEN max(1, n-2) AND n+2` (saturating i32
arithmetic), ordered by line number ascending, left-joined with speakers. -/
def get_context_lines (db : DB) (l : LineRow) : List LineOut :=
  (sortByLe lineNumLe
      (db.lines.filter (fun r =>
        r.episode_id == l.episode_id
          && decide (max (i32SatSub2 l.line_number) 1 ≤ r.line_number)
          && decide (r.line_number ≤ i32SatAdd2 l.line_number)))).map
    (withSpeakerName db)

/-- Outcome of `GET /search/phrases` (src/api.rs 295–311): `NotFound` when the
composed query returned zero rows, otherwise each matched line paired with its
context window. -/
inductive SearchOutcome
  | notFound
  | ok (rows : List (LineOut × List LineOut))
deriving DecidableEq, Repr

def search_phrases (fts : String → String → Bool) (db : DB)
    (q : SearchPhrasesQuery) : SearchOutcome :=
  if (searchRows fts db q).isEmpty then SearchOutcome.notFound
  else
    SearchOutcome.ok
      ((searchRows fts db q).map
        (fun r => (withSpeakerName db r.line, get_context_lines db r.line)))

/-- Outcome of `GET /transcripts/{season}/{episode}` (src/api.rs 379–447):
the season-number and episode-number existence checks run first, in that
order, each with its own not-found signal; the transcript `SELECT` itself has
*no* `ORDER BY` clause, so its rows come back in stored order. -/
inductive TranscriptOutcome
  | seasonNotFound
  | episodeNotFound
  | ok (rows : List LineOut)
deriving DecidableEq, Repr

def get_transcript (db : DB) (snum enum : Int) : TranscriptOutcome :=
  if !db.seasons.any (fun r => r.number == snum) then TranscriptOutcome.seasonNotFound
  else if !db.episodes.any (fun r => r.number == enum) then TranscriptOutcome.episodeNotFound
  else
    TranscriptOutcome.ok
      (((joinRows db).filter (fun r => r.sn.number == snum && r.ep.number == enum)).map
        (fun r => withSpeakerName db r.line))

/-- Rows of a transcript outcome (`[]` on the not-found outcomes). -/
def outRows : TranscriptOutcome → List LineOut
  | TranscriptOutcome.ok rows => rows
  | _ => []

/-! ## Concrete fixtures used by witnesses and counterexamples -/

def pilotFile : SrcFile := ⟨"1x01 - Pilot.txt", none, ["Hello", "World"]⟩

def notesFile : SrcFile := ⟨"notes.txt", none, ["hello"]⟩

def readmeFile : SrcFile := ⟨"readme.md", none, ["hi"]⟩

/-- Fault oracle that fires exactly at the post-commit cleanup of
`pilotFile`'s run (season, episode and two line statements use indices 0–3,
the staging-directory removal index 4). -/
def cleanupFaults : Nat → Bool := fun t => t == 4

def allFaults : Nat → Bool := fun _ => true

/-- The store after ingesting `pilotFile` twice into an empty tenant store. -/
def dbTwice : DB :=
  (process_seasons (process_seasons dbEmpty [pilotFile] noFaults).1 [pilotFile] noFaults).1

/-- A six-line episode, used to exercise the context window. -/
def dbSix : DB :=
  ⟨[⟨1, 1⟩], [⟨1, 1, 1, "Pilot"⟩], [],
    [⟨1, 1, 1, none, 1, "l1"⟩, ⟨2, 1, 1, none, 2, "l2"⟩, ⟨3, 1, 1, none, 3, "l3"⟩,
      ⟨4, 1, 1, none, 4, "l4"⟩, ⟨5, 1, 1, none, 5, "l5"⟩, ⟨6, 1, 1, none, 6, "l6"⟩],
    2, 2, 1, 7⟩

def lineFour : LineRow := ⟨4, 1, 1, none, 4, "l4"⟩

/-- Start state for a run of the line loop over an empty store. -/
def txStart : Tx := ⟨dbEmpty, 0⟩

/-- End state of the line loop over `["a", "b"]` from `txStart` with season id
5 and episode id 7. -/
def txEnd : Tx :=
  ⟨⟨[], [], [], [⟨1, 5, 7, none, 1, "a"⟩, ⟨2, 5, 7, none, 2, "b"⟩], 1, 1, 1, 3⟩, 2⟩

/-! ## Helper lemmas: the stable sort -/

theorem insertLe_perm (le : α → α → Bool) (a : α) (l : List α) :
    (insertLe le a l).Perm (a :: l) := by
  induction l with
  | nil => simp [insertLe]
  | cons b l ih =>
    simp only [insertLe]
    split
    · exact List.Perm.refl _
    · exact (List.Perm.cons b ih).trans (List.Perm.swap a b l)

theorem sortByLe_perm (le : α → α → Bool) (l : List α) : (sortByLe le l).Perm l := by
  induction l with
  | nil => simp [sortByLe]
  | cons a l ih =>
    simp only [sortByLe]
    exact (insertLe_perm le a (sortByLe le l)).trans (List.Perm.cons a ih)

theorem pairwise_insertLe (le : α → α → Bool)
    (htot : ∀ x y, le x y = true ∨ le y x = true)
    (htr : ∀ x y z, le x y = true → le y z = true → le x z = true)
    (a : α) (l : List α) (h : List.Pairwise (fun x y => le x y = true) l) :
    List.Pairwise (fun x y => le x y = true) (insertLe le a l) := by
  induction l with
  | nil => simp [insertLe]
  | cons b l ih =>
    rcases List.pairwise_cons.mp h with ⟨hb, hl⟩
    simp only [insertLe]
    split
    case isTrue hab =>
      refine List.Pairwise.cons (fun x hx => ?_) h
      rcases List.mem_cons.mp hx with rfl | hx'
      · exact hab
      · exact htr a b x hab (hb x hx')
    case isFalse hab =>
      refine List.Pairwise.cons (fun x hx => ?_) (ih hl)
      have hx' := (insertLe_perm le a l).mem_iff.mp hx
      rcases List.mem_cons.mp hx' with rfl | hx''
      · rcases htot x b with h1 | h1
        · exact absurd h1 hab
        · exact h1
      · exact hb x hx''

theorem sortByLe_sorted (le : α → α → Bool)
    (htot : ∀ x y, le x y = true ∨ le y x = true)
    (htr : ∀ x y z, le x y = true → le y z = true → le x z = true)
    (l : List α) : List.Pairwise (fun x y => le x y = true) (sortByLe le l) := by
  induction l with
  | nil => simp [sortByLe]
  | cons a l ih =>
    simp only [sortByLe]
    exact pairwise_insertLe le htot htr a _ ih

/-! ## Helper lemmas: faulty run versus fault-free run -/

theorem sqlStep_ok {α : Type} {faults : Nat → Bool} {st st1 : Tx} {op : DB → DB × α}
    {a : α} (h : sqlStep faults st op = Except.ok (st1, a)) :
    st1.db = (op st.db).1 ∧ a = (op st.db).2 := by
  unfold sqlStep at h
  split at h
  · exact absurd h (by simp)
  · rcases h with ⟨⟩
    exact ⟨rfl, rfl⟩

theorem sqlStep_error {α : Type} {faults : Nat → Bool} {st : Tx} {op : DB → DB × α}
    {e : IngestError} (h : sqlStep faults st op = Except.error e) :
    e = IngestError.storage := by
  unfold sqlStep at h
  split at h
  · rcases h with ⟨⟩
    rfl
  · exact absurd h (by simp)

theorem processLines_ok (faults : Nat → Bool) (sid eid : Nat) :
    ∀ (c : List String) (st st' : Tx) (n : Int),
      processLines faults st sid eid n c = Except.ok st' →
      st'.db = processLinesPure st.db sid eid n c := by
  intro c
  induction c with
  | nil =>
    intro st st' n h
    rcases h with ⟨⟩
    rfl
  | cons s rest ih =>
    intro st st' n h
    rw [processLines] at h
    rw [processLinesPure]
    cases hsplit : splitOnceColon s with
    | some pr =>
      obtain ⟨pre, post⟩ := pr
      simp only [hsplit] at h ⊢
      cases h1 : sqlStep faults st (fun db => upsertSpeaker db (strTrim pre)) with
      | error e => rw [h1] at h; exact absurd h (by simp)
      | ok p1 =>
        obtain ⟨st1, spkId⟩ := p1
        rw [h1] at h
        simp only [] at h
        obtain ⟨hdb1, ha1⟩ := sqlStep_ok h1
        cases h2 : sqlStep faults st1
            (fun db => (insertLine db sid eid (some spkId) n (strTrim post), ())) with
        | error e => rw [h2] at h; exact absurd h (by simp)
        | ok p2 =>
          obtain ⟨st2, u⟩ := p2
          rw [h2] at h
          simp only [] at h
          obtain ⟨hdb2, _⟩ := sqlStep_ok h2
          have := ih st2 st' (n + 1) h
          rw [this, hdb2, hdb1, ha1]
    | none =>
      simp only [hsplit] at h ⊢
      cases h1 : sqlStep faults st (fun db => (insertLine db sid eid none n (strTrim s), ())) with
      | error e => rw [h1] at h; exact absurd h (by simp)
      | ok p1 =>
        obtain ⟨st1, u⟩ := p1
        rw [h1] at h
        simp only [] at h
        obtain ⟨hdb1, _⟩ := sqlStep_ok h1
        have := ih st1 st' (n + 1) h
        rw [this, hdb1]

theorem processLines_error (faults : Nat → Bool) (sid eid : Nat) :
    ∀ (c : List String) (st : Tx) (n : Int) (e : IngestError),
      processLines faults st sid eid n c = Except.error e → e = IngestError.storage := by
  intro c
  induction c with
  | nil => intro st n e h; exact absurd h (by simp [processLines])
  | cons s rest ih =>
    intro st n e h
    rw [processLines] at h
    cases hsplit : splitOnceColon s with
    | some pr =>
      obtain ⟨pre, post⟩ := pr
      simp only [hsplit] at h
      cases h1 : sqlStep faults st (fun db => upsertSpeaker db (strTrim pre)) with
      | error e1 =>
        rw [h1] at h
        simp only [] at h
        rcases h with ⟨⟩
        exact sqlStep_error h1
      | ok p1 =>
        obtain ⟨st1, spkId⟩ := p1
        rw [h1] at h
        simp only [] at h
        cases h2 : sqlStep faults st1
            (fun db => (insertLine db sid eid (some spkId) n (strTrim post), ())) with
        | error e2 =>
          rw [h2] at h
          simp only [] at h
          rcases h with ⟨⟩
          exact sqlStep_error h2
        | ok p2 =>
          obtain ⟨st2, u⟩ := p2
          rw [h2] at h
          simp only [] at h
          exact ih st2 (n + 1) e h
    | none =>
      simp only [hsplit] at h
      cases h1 : sqlStep faults st (fun db => (insertLine db sid eid none n (strTrim s), ())) with
      | error e1 =>
        rw [h1] at h
        simp only [] at h
        rcases h with ⟨⟩
        exact sqlStep_error h1
      | ok p1 =>
        obtain ⟨st1, u⟩ := p1
        rw [h1] at h
        simp only [] at h
        exact ih st1 (n + 1) e h

theorem processEpisodes_ok (faults : Nat → Bool) (sid : Nat) :
    ∀ (eps : List (Int × String × SrcFile)) (st st' : Tx),
      processEpisodes faults st sid eps = Except.ok st' →
      st'.db = processEpisodesPure st.db sid eps := by
  intro eps
  induction eps with
  | nil =>
    intro st st' h
    rcases h with ⟨⟩
    rfl
  | cons hd rest ih =>
    intro st st' h
    obtain ⟨num, title, f⟩ := hd
    rw [processEpisodes] at h
    rw [processEpisodesPure]
    cases h1 : sqlStep faults st (fun db => upsertEpisode db sid num title) with
    | error e => rw [h1] at h; exact absurd h (by simp)
    | ok p1 =>
      obtain ⟨st1, eid⟩ := p1
      rw [h1] at h
      simp only [] at h
      obtain ⟨hdb1, ha1⟩ := sqlStep_ok h1
      cases h2 : processLines faults st1 sid eid 1 f.content with
      | error e => rw [h2] at h; exact absurd h (by simp)
      | ok st2 =>
        rw [h2] at h
        simp only [] at h
        have hl := processLines_ok faults sid eid f.content st1 st2 1 h2
        have := ih st2 st' h
        rw [this, hl, hdb1, ha1]

theorem processEpisodes_error (faults : Nat → Bool) (sid : Nat) :
    ∀ (eps : List (Int × String × SrcFile)) (st : Tx) (e : IngestError),
      processEpisodes faults st sid eps = Except.error e → e = IngestError.storage := by
  intro eps
  induction eps with
  | nil => intro st e h; exact absurd h (by simp [processEpisodes])
  | cons hd rest ih =>
    intro st e h
    obtain ⟨num, title, f⟩ := hd
    rw [processEpisodes] at h
    cases h1 : sqlStep faults st (fun db => upsertEpisode db sid num title) with
    | error e1 =>
      rw [h1] at h
      simp only [] at h
      rcases h with ⟨⟩
      exact sqlStep_error h1
    | ok p1 =>
      obtain ⟨st1, eid⟩ := p1
      rw [h1] at h
      simp only [] at h
      cases h2 : processLines faults st1 sid eid 1 f.content with
      | error e2 =>
        rw [h2] at h
        simp only [] at h
        rcases h with ⟨⟩
        exact processLines_error faults sid eid f.content st1 1 _ h2
      | ok st2 =>
        rw [h2] at h
        simp only [] at h
        exact ih st2 e h

theorem processGroups_ok (faults : Nat → Bool) :
    ∀ (gs : List (Int × List (Int × String × SrcFile))) (st st' : Tx),
      processGroups faults st gs = Except.ok st' →
      st'.db = processGroupsPure st.db gs := by
  intro gs
  induction gs with
  | nil =>
    intro st st' h
    rcases h with ⟨⟩
    rfl
  | cons hd rest ih =>
    intro st st' h
    obtain ⟨snum, eps⟩ := hd
    rw [processGroups] at h
    rw [processGroupsPure]
    cases h1 : sqlStep faults st (fun db => upsertSeason db snum) with
    | error e => rw [h1] at h; exact absurd h (by simp)
    | ok p1 =>
      obtain ⟨st1, sid⟩ := p1
      rw [h1] at h
      simp only [] at h
      obtain ⟨hdb1, ha1⟩ := sqlStep_ok h1
      cases h2 : processEpisodes faults st1 sid (sortByLe epSortLe eps) with
      | error e => rw [h2] at h; exact absurd h (by simp)
      | ok st2 =>
        rw [h2] at h
        simp only [] at h
        have he := processEpisodes_ok faults sid (sortByLe epSortLe eps) st1 st2 h2
        have := ih st2 st' h
        rw [this, he, hdb1, ha1]

theorem processGroups_error (faults : Nat → Bool) :
    ∀ (gs : List (Int × List (Int × String × SrcFile))) (st : Tx) (e : IngestError),
      processGroups faults st gs = Except.error e → e = IngestError.storage := by
  intro gs
  induction gs with
  | nil => intro st e h; exact absurd h (by simp [processGroups])
  | cons hd rest ih =>
    intro st e h
    obtain ⟨snum, eps⟩ := hd
    rw [processGroups] at h
    cases h1 : sqlStep faults st (fun db => upsertSeason db snum) with
    | error e1 =>
      rw [h1] at h
      simp only [] at h
      rcases h with ⟨⟩
      exact sqlStep_error h1
    | ok p1 =>
      obtain ⟨st1, sid⟩ := p1
      rw [h1] at h
      simp only [] at h
      cases h2 : processEpisodes faults st1 sid (sortByLe epSortLe eps) with
      | error e2 =>
        rw [h2] at h
        simp only [] at h
        rcases h with ⟨⟩
        exact processEpisodes_error faults sid (sortByLe epSortLe eps) st1 _ h2
      | ok st2 =>
        rw [h2] at h
        simp only [] at h
        exact ih st2 e h

/-! ## Helper lemmas: shape of the rows inserted by the line loop -/

theorem upsertSpeaker_lines (db : DB) (name : String) :
    ((upsertSpeaker db name).1).lines = db.lines := by
  unfold upsertSpeaker
  split <;> rfl

theorem insertLine_lines (db : DB) (sid eid : Nat) (spk : Option Nat) (n : Int)
    (content : String) :
    (insertLine db sid eid spk n content).lines
      = db.lines ++ [⟨db.nextLineId, sid, eid, spk, n, content⟩] := rfl

theorem upsertSpeaker_mem (db : DB) (name : String) :
    (⟨(upsertSpeaker db name).2, name⟩ : SpeakerRow) ∈ ((upsertSpeaker db name).1).speakers := by
  unfold upsertSpeaker
  cases hf : db.speakers.find? (fun r => r.name == name) with
  | some r =>
    simp only []
    have hmem := List.mem_of_find?_eq_some hf
    have hp : r.name = name := by simpa using List.find?_some hf
    rw [← hp]
    exact hmem
  | none =>
    simp

theorem splitOnceColon_pos (s : String) (h : s.data.contains ':' = true) :
    splitOnceColon s = some (beforeColon s, afterColon s) := by
  unfold splitOnceColon
  rw [h]
  simp

theorem splitOnceColon_neg (s : String) (h : s.data.contains ':' = false) :
    splitOnceColon s = none := by
  unfold splitOnceColon
  rw [h]
  simp

theorem processLinesPure_lines (sid eid : Nat) :
    ∀ (c : List String) (db : DB) (n : Int),
      ∃ newRows, (processLinesPure db sid eid n c).lines = db.lines ++ newRows
        ∧ newRows.map (fun r => r.line_number)
            = (List.range c.length).map (fun i => n + Int.ofNat i) := by
  intro c
  induction c with
  | nil =>
    intro db n
    exact ⟨[], by simp [processLinesPure], by simp⟩
  | cons s rest ih =>
    intro db n
    rw [processLinesPure]
    have hmapStep :
        ∀ rows : List LineRow,
          rows.map (fun r => r.line_number)
              = (List.range rest.length).map (fun i => (n + 1) + Int.ofNat i) →
          ∀ r0 : LineRow, r0.line_number = n →
            (r0 :: rows).map (fun r => r.line_number)
              = (List.range (rest.length + 1)).map (fun i => n + Int.ofNat i) := by
      intro rows hm r0 hr0
      rw [List.range_succ_eq_map, List.map_cons, List.map_cons, List.map_map, hm, hr0]
      refine congrArg₂ List.cons (by simp) (List.map_congr_left ?_)
      intro i _
      show (n + 1) + Int.ofNat i = n + Int.ofNat (i + 1)
      simp only [Int.ofNat_eq_natCast, Nat.cast_add, Nat.cast_one]
      ring
    cases hsplit : splitOnceColon s with
    | some pr =>
      obtain ⟨pre, post⟩ := pr
      simp only [hsplit]
      obtain ⟨rows, hrows, hmap⟩ :=
        ih (insertLine (upsertSpeaker db (strTrim pre)).1 sid eid
          (some (upsertSpeaker db (strTrim pre)).2) n (strTrim post)) (n + 1)
      refine ⟨⟨((upsertSpeaker db (strTrim pre)).1).nextLineId, sid, eid,
          some (upsertSpeaker db (strTrim pre)).2, n, strTrim post⟩ :: rows, ?_, ?_⟩
      · rw [hrows, insertLine_lines, upsertSpeaker_lines, List.append_assoc]
        rfl
      · exact hmapStep rows hmap _ rfl
    | none =>
      simp only [hsplit]
      obtain ⟨rows, hrows, hmap⟩ :=
        ih (insertLine db sid eid none n (strTrim s)) (n + 1)
      refine ⟨⟨db.nextLineId, sid, eid, none, n, strTrim s⟩ :: rows, ?_, ?_⟩
      · rw [hrows, insertLine_lines, List.append_assoc]
        rfl
      · exact hmapStep rows hmap _ rfl

/-! ## Helper lemmas: the ORDER BY key relations -/

theorem rowLe_total (a b : JoinedRow) : rowLe a b = true ∨ rowLe b a = true := by
  unfold rowLe
  simp only [decide_eq_true_eq]
  omega

theorem rowLe_trans (a b c : JoinedRow) (h1 : rowLe a b = true) (h2 : rowLe b c = true) :
    rowLe a c = true := by
  unfold rowLe at h1 h2 ⊢
  simp only [decide_eq_true_eq] at h1 h2 ⊢
  omega

theorem lineNumLe_total (a b : LineRow) : lineNumLe a b = true ∨ lineNumLe b a = true := by
  unfold lineNumLe
  simp only [decide_eq_true_eq]
  omega

theorem lineNumLe_trans (a b c : LineRow) (h1 : lineNumLe a b = true)
    (h2 : lineNumLe b c = true) : lineNumLe a c = true := by
  unfold lineNumLe at h1 h2 ⊢
  simp only [decide_eq_true_eq] at h1 h2 ⊢
  omega

/-- `processLinesPure` on a single line, with the two colon cases spelled
out. -/
theorem processLinesPure_single (db : DB) (sid eid : Nat) (n : Int) (s : String) :
    processLinesPure db sid eid n [s]
      = match splitOnceColon s with
        | some (pre, post) =>
          insertLine (upsertSpeaker db (strTrim pre)).1 sid eid
            (some (upsertSpeaker db (strTrim pre)).2) n (strTrim post)
        | none => insertLine db sid eid none n (strTrim s) := by
  rw [processLinesPure]
  cases splitOnceColon s with
  | some pr =>
    obtain ⟨pre, post⟩ := pr
    rfl
  | none => rfl

/-! ## Claims -/

/-- C1 (amended): the transaction itself is all-or-nothing — a failure of any
statement before the commit point leaves the caller's store untouched, and a
successful call commits exactly the fault-free staging of every recognized
file; the one exception forced by the code is the post-commit removal of the
staging directory (`remove_dir_all(extract_dir).await?`, src/file_parser.rs
163), whose failure makes the call return an error even though every row of
the run is already committed. -/
theorem claim1_ingestion_atomicity (db : DB) (files : List SrcFile) (faults : Nat → Bool) :
    ((process_seasons db files faults).2 = none →
        (process_seasons db files faults).1 = process_seasonsPure db files)
  ∧ (∀ e, (process_seasons db files faults).2 = some e →
        e ≠ IngestError.cleanupFailed → (process_seasons db files faults).1 = db)
  ∧ ((process_seasons db files faults).2 = some IngestError.cleanupFailed →
        (process_seasons db files faults).1 = process_seasonsPure db files) := by
  unfold process_seasons process_seasonsPure
  cases hemp : (sortByLe nameLe (txtEntries files)).isEmpty with
  | true => simp
  | false =>
    simp only [if_neg Bool.false_ne_true]
    cases hrun : processGroups faults ⟨db, 0⟩
        (classifyGroups (sortByLe nameLe (txtEntries files))) with
    | error e =>
      have he := processGroups_error faults _ _ e hrun
      subst he
      simp only []
      exact ⟨fun h => absurd h (by simp), fun _ _ _ => trivial, fun h => absurd h (by simp)⟩
    | ok st =>
      have hdb := processGroups_ok faults _ _ _ hrun
      simp only []
      cases hcl : faults st.tick with
      | true =>
        rw [if_pos rfl]
        refine ⟨fun h => absurd h (by simp), fun e' he' hne' => ?_, fun _ => hdb⟩
        have : e' = IngestError.cleanupFailed := by simpa using he'.symm
        exact absurd this hne'
      | false =>
        simp only [if_neg Bool.false_ne_true]
        exact ⟨fun _ => hdb, fun e' he' _ => absurd he' (by simp), fun h => absurd h (by simp)⟩

/-- C1 witness: a storage fault at the very first statement leaves the store
untouched, and a fault-free call commits the full staging of the run. -/
theorem claim1_witness :
    (process_seasons dbEmpty [pilotFile] allFaults).1 = dbEmpty
  ∧ (process_seasons dbEmpty [pilotFile] noFaults).1
      = process_seasonsPure dbEmpty [pilotFile] :=
  ⟨(claim1_ingestion_atomicity dbEmpty [pilotFile] allFaults).2.1 IngestError.storage
      (by decide) (by decide),
    (claim1_ingestion_atomicity dbEmpty [pilotFile] noFaults).1 (by decide)⟩

/-- C1 counterexample: when only the post-commit removal of the staging
directory fails, the ingestion call reports an error although all line rows of
the run are present afterwards — refuting "the call fails and no season,
episode, speaker, or line row from that run is present afterwards". -/
theorem claim1_counterexample :
    (process_seasons dbEmpty [pilotFile] cleanupFaults).2 = some IngestError.cleanupFailed
  ∧ (process_seasons dbEmpty [pilotFile] cleanupFaults).1.lines ≠ [] :=
  ⟨by decide, by decide⟩

/-- C2: evaluation of the sanitizer at the failing inputs.  The raw-string
pattern `r"[^\\w\\s]"` denotes the negated class {`\`, `w`, `s`}, so the
sanitizer wrongly replaces alphanumeric characters ("hello" becomes five
spaces, "ws" survives only because its letters are literally `w` and `s`) and
wrongly keeps the non-alphanumeric backslash. -/
theorem claim2_sanitizer_divergence :
    escape_fts5_query "hello" = "     "
  ∧ escape_fts5_query "\\" = "\\"
  ∧ escape_fts5_query "ws" = "ws" :=
  ⟨by decide, by decide, by decide⟩

/-- C3 (amended): ingestion fails with the no-valid-text-files error, touching
nothing, exactly when the walked collection contains no `.txt` entry; when
`.txt` entries exist but zero of them classify, the call performs no writes
and does not fail with that error (it commits an empty transaction). -/
theorem claim3_fail_fast (db : DB) (files : List SrcFile) (faults : Nat → Bool) :
    (txtEntries files = [] →
        process_seasons db files faults = (db, some IngestError.noValidTextFiles))
  ∧ (txtEntries files ≠ [] →
      classifyGroups (sortByLe nameLe (txtEntries files)) = [] →
        (process_seasons db files faults).1 = db
      ∧ (process_seasons db files faults).2 ≠ some IngestError.noValidTextFiles
      ∧ (process_seasons db files faults).2 ≠ some IngestError.storage) := by
  constructor
  · intro h
    unfold process_seasons
    rw [h]
    simp [sortByLe]
  · intro hne hcl
    have hemp : (sortByLe nameLe (txtEntries files)).isEmpty = false := by
      cases hs : sortByLe nameLe (txtEntries files) with
      | nil =>
        have hlen := (sortByLe_perm nameLe (txtEntries files)).length_eq
        rw [hs] at hlen
        cases hx : txtEntries files with
        | nil => exact absurd hx hne
        | cons a l => rw [hx] at hlen; simp at hlen
      | cons a l => rfl
    unfold process_seasons
    rw [hemp, hcl]
    simp only [if_neg Bool.false_ne_true, processGroups]
    split
    · exact ⟨rfl, by simp, by simp⟩
    · exact ⟨rfl, by simp, by simp⟩

/-- C3 witness: a collection with no `.txt` file is rejected with the
no-valid-text-files error; a `.txt` collection in which nothing classifies
leaves the store untouched without that error. -/
theorem claim3_witness :
    process_seasons dbEmpty [readmeFile] noFaults
      = (dbEmpty, some IngestError.noValidTextFiles)
  ∧ ((process_seasons dbEmpty [notesFile] noFaults).1 = dbEmpty
      ∧ (process_seasons dbEmpty [notesFile] noFaults).2 ≠ some IngestError.noValidTextFiles
      ∧ (process_seasons dbEmpty [notesFile] noFaults).2 ≠ some IngestError.storage) :=
  ⟨(claim3_fail_fast dbEmpty [readmeFile] noFaults).1 (by decide),
    (claim3_fail_fast dbEmpty [notesFile] noFaults).2 (by decide) (by decide)⟩

/-- C3 counterexample: `notes.txt` is a `.txt` file that classification
rejects, so the collection classifies to zero identities, yet the ingestion
call succeeds (no `NoRecognizedFiles` error) — refuting "ingestion fails with
NoRecognizedFiles … when classification produces an identity for zero of the
input files". -/
theorem claim3_counterexample :
    process_seasons dbEmpty [notesFile] noFaults = (dbEmpty, none) := by decide

/-- C4 (amended): the phrase-search response is ordered by
`(season number, episode number, line number)` ascending; the transcript
query carries no ordering clause, so its rows are exactly the matching joined
rows in stored order. -/
theorem claim4_ordering (fts : String → String → Bool) (db : DB)
    (q : SearchPhrasesQuery) (sn en : Int) :
    List.Pairwise (fun a b => rowLe a b = true) (searchRows fts db q)
  ∧ (∀ rows, get_transcript db sn en = TranscriptOutcome.ok rows →
      rows = ((joinRows db).filter (fun r => r.sn.number == sn && r.ep.number == en)).map
        (fun r => withSpeakerName db r.line)) := by
  constructor
  · unfold searchRows
    exact sortByLe_sorted rowLe rowLe_total rowLe_trans _
  · intro rows h
    unfold get_transcript at h
    split at h
    · exact absurd h (by simp)
    · split at h
      · exact absurd h (by simp)
      · rcases h with ⟨⟩
        rfl

/-- C4 witness: a sorted search over the twice-ingested store, and the
transcript rows of that store matching the stored-order characterization. -/
theorem claim4_witness :
    List.Pairwise (fun a b => rowLe a b = true)
      (searchRows (fun _ _ => true) dbTwice ⟨none, none, none, none, none⟩)
  ∧ outRows (get_transcript dbTwice 1 1)
      = ((joinRows dbTwice).filter (fun r => r.sn.number == 1 && r.ep.number == 1)).map
          (fun r => withSpeakerName dbTwice r.line) :=
  ⟨(claim4_ordering (fun _ _ => true) dbTwice ⟨none, none, none, none, none⟩ 1 1).1,
    (claim4_ordering (fun _ _ => true) dbTwice ⟨none, none, none, none, none⟩ 1 1).2
      (outRows (get_transcript dbTwice 1 1)) (by decide)⟩

/-- C4 counterexample: after ingesting the same two-line episode twice, the
transcript returns line numbers `[1, 2, 1, 2]`, which is not ascending —
refuting "every multi-row query response (phrase search and transcript alike)
is ordered by season number, then episode number, then line number". -/
theorem claim4_counterexample :
    (outRows (get_transcript dbTwice 1 1)).map (fun r => r.line.line_number) = [1, 2, 1, 2]
  ∧ ¬ List.Pairwise (fun a b : Int => a ≤ b)
      ((outRows (get_transcript dbTwice 1 1)).map (fun r => r.line.line_number)) :=
  ⟨by decide, by decide⟩

/-- C5: evaluation of the condition builder at the failing input.  With the
phrase field absent the built term is the non-empty string `"MATCH "` (or
`"\"\""` under `similar_search`), so the emptiness guard never fires and an
FTS match predicate with that bound value is still pushed, where the claim
requires no predicate at all. -/
theorem claim5_absent_phrase_still_binds :
    buildConditions ⟨none, none, none, none, none⟩ = ([Cond.ftsMatch], ["MATCH "])
  ∧ buildConditions ⟨none, none, none, none, some true⟩ = ([Cond.ftsMatch], ["\"\""]) :=
  ⟨by decide, by decide⟩

/-- C6: the phrase search returns `NotFound` exactly when the composed query
yields zero rows, and never returns an empty result list. -/
theorem claim6_notfound_never_empty (fts : String → String → Bool) (db : DB)
    (q : SearchPhrasesQuery) :
    (search_phrases fts db q = SearchOutcome.notFound ↔ searchRows fts db q = [])
  ∧ search_phrases fts db q ≠ SearchOutcome.ok [] := by
  unfold search_phrases
  cases hres : (searchRows fts db q).isEmpty with
  | true =>
    have hnil : searchRows fts db q = [] := by
      cases hs : searchRows fts db q with
      | nil => rfl
      | cons a l => rw [hs] at hres; simp at hres
    simp only [if_pos rfl]
    exact ⟨⟨fun _ => hnil, fun _ => rfl⟩, by simp⟩
  | false =>
    have hne : searchRows fts db q ≠ [] := by
      intro hnil
      rw [hnil] at hres
      simp at hres
    simp only [if_neg Bool.false_ne_true]
    refine ⟨⟨fun h => absurd h (by simp), fun h => absurd h hne⟩, fun h => ?_⟩
    have h2 := SearchOutcome.ok.inj h
    rw [List.map_eq_nil_iff] at h2
    exact hne h2

/-- C7: the context window of a matched line consists of all lines of the same
episode with line number in `[max(1, n-2), n+2]`, ascending, clamped below at
1, and always contains the matched line itself. -/
theorem claim7_context_window (db : DB) (l : LineRow)
    (h1 : 1 ≤ l.line_number) (h2 : l.line_number ≤ 2147483645) (hmem : l ∈ db.lines) :
    ((get_context_lines db l).map (fun o => o.line)).Perm
        (db.lines.filter (fun r => r.episode_id == l.episode_id
          && decide (max 1 (l.line_number - 2) ≤ r.line_number)
          && decide (r.line_number ≤ l.line_number + 2)))
  ∧ List.Pairwise (fun a b => a.line.line_number ≤ b.line.line_number)
      (get_context_lines db l)
  ∧ withSpeakerName db l ∈ get_context_lines db l := by
  have e1 : max (i32SatSub2 l.line_number) 1 = max 1 (l.line_number - 2) := by
    simp only [i32SatSub2]
    omega
  have e2 : i32SatAdd2 l.line_number = l.line_number + 2 := by
    simp only [i32SatAdd2]
    omega
  unfold get_context_lines
  rw [e1, e2]
  refine ⟨?_, ?_, ?_⟩
  · rw [List.map_map]
    have hid : (fun o : LineOut => o.line) ∘ withSpeakerName db = id := by
      funext r
      rfl
    rw [hid, List.map_id]
    exact sortByLe_perm _ _
  · rw [List.pairwise_map]
    refine (sortByLe_sorted lineNumLe lineNumLe_total lineNumLe_trans _).imp ?_
    intro a b hab
    simpa [lineNumLe] using hab
  · apply List.mem_map_of_mem
    refine (sortByLe_perm lineNumLe _).mem_iff.mpr ?_
    refine List.mem_filter.mpr ⟨hmem, ?_⟩
    simp only [Bool.and_eq_true, beq_self_eq_true, decide_eq_true_eq]
    exact ⟨⟨trivial, max_le_iff.mpr ⟨h1, by omega⟩⟩, by omega⟩

/-- C7 witness: in a six-line episode the window of matched line 4 is lines
2–6 ascending and contains the match. -/
theorem claim7_witness :
    lineFour ∈ dbSix.lines
  ∧ (((get_context_lines dbSix lineFour).map (fun o => o.line)).Perm
        (dbSix.lines.filter (fun r => r.episode_id == lineFour.episode_id
          && decide (max 1 (lineFour.line_number - 2) ≤ r.line_number)
          && decide (r.line_number ≤ lineFour.line_number + 2)))
      ∧ List.Pairwise (fun a b => a.line.line_number ≤ b.line.line_number)
          (get_context_lines dbSix lineFour)
      ∧ withSpeakerName dbSix lineFour ∈ get_context_lines dbSix lineFour) :=
  ⟨by decide, claim7_context_window dbSix lineFour (by decide) (by decide) (by decide)⟩

/-- C8: the classifier maps "1x01 - Pilot.txt" to season 1, episode 1, title
"Pilot"; maps "e05 - Finale.txt" under parent "Season 3" to season 3, episode
5, title "Finale"; and rejects the same file under parent "Extras". -/
theorem claim8_classifier_examples :
    parse_episode_filename "1x01 - Pilot.txt" none = some (1, 1, "Pilot")
  ∧ parse_episode_filename "e05 - Finale.txt" (some "Season 3") = some (3, 5, "Finale")
  ∧ parse_episode_filename "e05 - Finale.txt" (some "Extras") = none :=
  ⟨by decide, by decide, by decide⟩

/-- C9: a successful run of the per-episode line loop starting at counter 1
appends exactly one row per physical line — line numbers `1, 2, …, len` —
and leaves every previously inserted row in place. -/
theorem claim9_line_numbering (faults : Nat → Bool) (st st' : Tx) (sid eid : Nat)
    (c : List String) (h : processLines faults st sid eid 1 c = Except.ok st') :
    ∃ newRows, st'.db.lines = st.db.lines ++ newRows
      ∧ newRows.map (fun r => r.line_number)
          = (List.range c.length).map (fun i => 1 + Int.ofNat i)
      ∧ newRows.length = c.length := by
  have hp := processLines_ok faults sid eid c st st' 1 h
  obtain ⟨rows, hrows, hmap⟩ := processLinesPure_lines sid eid c st.db 1
  refine ⟨rows, by rw [hp, hrows], hmap, ?_⟩
  have hlen := congrArg List.length hmap
  simpa using hlen

/-- C9 witness: a two-line episode yields rows numbered 1 and 2 appended to an
empty store. -/
theorem claim9_witness :
    ∃ newRows, txEnd.db.lines = txStart.db.lines ++ newRows
      ∧ newRows.map (fun r => r.line_number)
          = (List.range (["a", "b"] : List String).length).map (fun i => 1 + Int.ofNat i)
      ∧ newRows.length = (["a", "b"] : List String).length :=
  claim9_line_numbering noFaults txStart txEnd 5 7 ["a", "b"] (by rfl)

/-- C10: a line containing a colon always upserts a speaker named with the
trimmed text before the first colon — whatever that text is — and carries its
id; a line with no colon is inserted with no speaker id.  So `speaker_id` is
absent exactly for colon-free lines. -/
theorem claim10_speaker_from_colon (db : DB) (sid eid : Nat) (n : Int) (s : String) :
    (s.data.contains ':' = true →
      ∃ k idv, (processLinesPure db sid eid n [s]).lines
          = db.lines ++ [⟨idv, sid, eid, some k, n, strTrim (afterColon s)⟩]
        ∧ (⟨k, strTrim (beforeColon s)⟩ : SpeakerRow)
            ∈ ((processLinesPure db sid eid n [s]).speakers))
  ∧ (s.data.contains ':' = false →
      ∃ idv, (processLinesPure db sid eid n [s]).lines
          = db.lines ++ [⟨idv, sid, eid, none, n, strTrim s⟩]) := by
  constructor
  · intro h
    rw [processLinesPure_single, splitOnceColon_pos s h]
    simp only []
    refine ⟨(upsertSpeaker db (strTrim (beforeColon s))).2,
      ((upsertSpeaker db (strTrim (beforeColon s))).1).nextLineId, ?_, ?_⟩
    · rw [insertLine_lines, upsertSpeaker_lines]
    · exact upsertSpeaker_mem db (strTrim (beforeColon s))
  · intro h
    rw [processLinesPure_single, splitOnceColon_neg s h]
    simp only []
    exact ⟨db.nextLineId, insertLine_lines db sid eid none n (strTrim s)⟩

/-- C10 witness: "3:30" yields a speaker named "3"; "Just narration" yields a
row with no speaker id. -/
theorem claim10_witness :
    (∃ k idv, (processLinesPure dbEmpty 1 1 1 ["3:30"]).lines
        = dbEmpty.lines ++ [⟨idv, 1, 1, some k, 1, strTrim (afterColon "3:30")⟩]
      ∧ (⟨k, strTrim (beforeColon "3:30")⟩ : SpeakerRow)
          ∈ ((processLinesPure dbEmpty 1 1 1 ["3:30"]).speakers))
  ∧ (∃ idv, (processLinesPure dbEmpty 1 1 1 ["Just narration"]).lines
        = dbEmpty.lines ++ [⟨idv, 1, 1, none, 1, strTrim "Just narration"⟩]) :=
  ⟨(claim10_speaker_from_colon dbEmpty 1 1 1 "3:30").1 (by decide),
    (claim10_speaker_from_colon dbEmpty 1 1 1 "Just narration").2 (by decide)⟩

end TranscriptSearch
